import Mathlib

/-!
Shallow embedding of the bevl input-state bridge (src/lib.rs) and of the
location-keyed render identifier (src/render.rs).

Modelling conventions:
- `KeyCode`, `MouseButton` and `scan_code` are modelled as `Nat` (they are
  opaque identifiers; only equality is ever used on them).
- `HashMap` is modelled as an association list with `lookupState` /
  `insertState`; `entry(k).or_default()` is `(lookupState m k).getD` the
  all-false record followed by `insertState`.
- `Vec2` carries `Int` components: the source stores `f32` values but the
  code only ever assigns, forwards and compares them — no float arithmetic
  occurs in any modelled path.
- The per-frame system `update_keys` is a pure function from the current
  `Context` and the frame's drained event lists to the new `Context`
  together with the ordered list of handler callbacks it invoked.
- The accessors `ctx` / `ctx_mut` are additionally modelled at the level of
  their effect traces (`ctxTrace` / `ctx_mutTrace`): the order in which they
  acquire the lock, fail the `expect` check, or run the caller's closure.
-/

namespace Bevl

/-- Key/button transition kind (`bevy::input::ElementState`). -/
inductive ElementState
  | Pressed
  | Released
deriving DecidableEq

/-- Per-key/per-button flag record (`ButtonState` in src/lib.rs). -/
structure ButtonState where
  down : Bool
  pressed : Bool
  released : Bool
deriving DecidableEq

/-- The `#[derive(Default)]` value of `ButtonState`: all flags false. -/
def defaultButtonState : ButtonState := ⟨false, false, false⟩

/-- 2D vector (`bevy` `Vec2`); `f32` components modelled as `Int` because the
modelled code paths only store, forward and compare them. -/
structure Vec2 where
  x : Int
  y : Int
deriving DecidableEq

/-- Association-list lookup, modelling `HashMap::get`. -/
def lookupState : List (Nat × ButtonState) → Nat → Option ButtonState
  | [], _ => none
  | (k2, v) :: rest, k => if k2 = k then some v else lookupState rest k

/-- Association-list insert-or-replace, modelling writing through a
`HashMap::entry`. -/
def insertState : List (Nat × ButtonState) → Nat → ButtonState → List (Nat × ButtonState)
  | [], k, v => [(k, v)]
  | (k2, v2) :: rest, k, v =>
    if k2 = k then (k, v) :: rest else (k2, v2) :: insertState rest k v

/-- The `Context` struct of src/lib.rs: window size, pointer position and the
two button-state maps. -/
structure Context where
  window_size : Vec2
  mouse_position : Vec2
  keys : List (Nat × ButtonState)
  mouse_buttons : List (Nat × ButtonState)
deriving DecidableEq

/-- The context installed by `run`: window size from the configuration,
`Vec2::ZERO` pointer position, empty maps. -/
def initialContext (width height : Int) : Context :=
  ⟨⟨width, height⟩, ⟨0, 0⟩, [], []⟩

/-- A `bevy` `KeyboardInput` event: `key_code` is an `Option` (events with no
attached key code occur). -/
structure KeyboardInput where
  scan_code : Nat
  key_code : Option Nat
  state : ElementState
deriving DecidableEq

/-- A `bevy` `MouseButtonInput` event. -/
structure MouseButtonInput where
  button : Nat
  state : ElementState
deriving DecidableEq

/-- A `bevy` `MouseMotion` event (relative delta). -/
structure MouseMotion where
  delta : Vec2
deriving DecidableEq

/-- A `bevy` `CursorMoved` event (absolute position). -/
structure CursorMoved where
  position : Vec2
deriving DecidableEq

/-- A `bevy` `WindowResized` event. -/
structure WindowResized where
  width : Int
  height : Int
deriving DecidableEq

/-- One invocation of a user `EventHandler` hook, recorded in order. The
`Bool` of `keyboard` is the `repeat` argument. -/
inductive CallbackEvent
  | keyboard : Nat → Nat → ElementState → Bool → CallbackEvent
  | mouseButton : Nat → ElementState → CallbackEvent
  | mouseRelative : Vec2 → CallbackEvent
  | mouseAbsolute : Vec2 → CallbackEvent
  | windowResized : Vec2 → CallbackEvent
  | closeRequested : CallbackEvent
deriving DecidableEq

/-- The keyboard branch of `update_keys` applied to one key's state: reset
`pressed`/`released`, then on `Pressed` capture `repeat` from the (unchanged)
`down` flag and set `down`/`pressed`; on `Released` clear `down` and set
`released`. Returns the new state and the `repeat` value passed on. -/
def applyKeyTransition (s : ButtonState) (st : ElementState) : ButtonState × Bool :=
  let s1 : ButtonState := { s with pressed := false, released := false }
  match st with
  | ElementState.Pressed => ({ s1 with down := true, pressed := true }, s1.down)
  | ElementState.Released => ({ s1 with down := false, released := true }, false)

/-- The mouse-button branch of `update_keys` applied to one button's state
(no repeat concept). -/
def applyMouseTransition (s : ButtonState) (st : ElementState) : ButtonState :=
  let s1 : ButtonState := { s with pressed := false, released := false }
  match st with
  | ElementState.Pressed => { s1 with down := true, pressed := true }
  | ElementState.Released => { s1 with down := false, released := true }

/-- Processing of one `KeyboardInput` event by `update_keys`: events whose
`key_code` is absent are skipped entirely (no state change, no callback);
otherwise the key's entry is defaulted-in, updated, and the keyboard callback
is invoked with `(key, scan_code, state, repeat)`. -/
def processKeyboardEvent (c : Context) (input : KeyboardInput) : Context × List CallbackEvent :=
  match input.key_code with
  | none => (c, [])
  | some key =>
    let s0 := (lookupState c.keys key).getD defaultButtonState
    let r := applyKeyTransition s0 input.state
    ({ c with keys := insertState c.keys key r.1 },
      [CallbackEvent.keyboard key input.scan_code input.state r.2])

/-- The keyboard loop of `update_keys`, in arrival order. -/
def processKeyboard (c : Context) : List KeyboardInput → Context × List CallbackEvent
  | [] => (c, [])
  | e :: rest =>
    let r1 := processKeyboardEvent c e
    let r2 := processKeyboard r1.1 rest
    (r2.1, r1.2 ++ r2.2)

/-- Processing of one `MouseButtonInput` event by `update_keys`. -/
def processMouseButtonEvent (c : Context) (input : MouseButtonInput) : Context × List CallbackEvent :=
  let s0 := (lookupState c.mouse_buttons input.button).getD defaultButtonState
  let s1 := applyMouseTransition s0 input.state
  ({ c with mouse_buttons := insertState c.mouse_buttons input.button s1 },
    [CallbackEvent.mouseButton input.button input.state])

/-- The mouse-button loop of `update_keys`, in arrival order. -/
def processMouseButtons (c : Context) : List MouseButtonInput → Context × List CallbackEvent
  | [] => (c, [])
  | e :: rest =>
    let r1 := processMouseButtonEvent c e
    let r2 := processMouseButtons r1.1 rest
    (r2.1, r1.2 ++ r2.2)

/-- The mouse-motion loop of `update_keys`: each delta is forwarded to the
relative-motion callback; the `Context` is not touched. -/
def processMouseMotion (c : Context) (events : List MouseMotion) : Context × List CallbackEvent :=
  (c, events.map (fun m => CallbackEvent.mouseRelative m.delta))

/-- The cursor-moved loop of `update_keys`: each position is stored into
`mouse_position` and forwarded to the absolute-position callback. -/
def processCursorMoved (c : Context) : List CursorMoved → Context × List CallbackEvent
  | [] => (c, [])
  | e :: rest =>
    let c1 : Context := { c with mouse_position := e.position }
    let r := processCursorMoved c1 rest
    (r.1, CallbackEvent.mouseAbsolute e.position :: r.2)

/-- The resize loop of `update_keys`: each event's `(width, height)` is stored
into `window_size` and forwarded to the resize callback. -/
def processResize (c : Context) : List WindowResized → Context × List CallbackEvent
  | [] => (c, [])
  | e :: rest =>
    let size : Vec2 := ⟨e.width, e.height⟩
    let c1 : Context := { c with window_size := size }
    let r := processResize c1 rest
    (r.1, CallbackEvent.windowResized size :: r.2)

/-- The event lists drained by one run of the `update_keys` system (one
ingestion cycle). `close` records whether a close request was pending. -/
structure FrameEvents where
  keyboard : List KeyboardInput
  mouse_buttons : List MouseButtonInput
  mouse_motion : List MouseMotion
  cursor_moved : List CursorMoved
  resize : List WindowResized
  close : Bool
deriving DecidableEq

/-- A frame with no events and no close request. -/
def emptyFrame : FrameEvents := ⟨[], [], [], [], [], false⟩

/-- One ingestion cycle (`update_keys` in src/lib.rs): the six event
categories processed in source order, returning the new context and the
in-order list of invoked callbacks. -/
def update_keys (c : Context) (f : FrameEvents) : Context × List CallbackEvent :=
  let r1 := processKeyboard c f.keyboard
  let r2 := processMouseButtons r1.1 f.mouse_buttons
  let r3 := processMouseMotion r2.1 f.mouse_motion
  let r4 := processCursorMoved r3.1 f.cursor_moved
  let r5 := processResize r4.1 f.resize
  let l6 := if f.close then [CallbackEvent.closeRequested] else []
  (r5.1, r1.2 ++ r2.2 ++ r3.2 ++ r4.2 ++ r5.2 ++ l6)

/-- `getters::is_key_down`: `ctx.keys.get(key).map_or(false, s.down)`. -/
def is_key_down (c : Context) (key : Nat) : Bool :=
  match lookupState c.keys key with
  | some s => s.down
  | none => false

/-- `getters::is_key_pressed`. -/
def is_key_pressed (c : Context) (key : Nat) : Bool :=
  match lookupState c.keys key with
  | some s => s.pressed
  | none => false

/-- `getters::is_key_released`. -/
def is_key_released (c : Context) (key : Nat) : Bool :=
  match lookupState c.keys key with
  | some s => s.released
  | none => false

/-- `getters::is_mouse_button_down`. -/
def is_mouse_button_down (c : Context) (mb : Nat) : Bool :=
  match lookupState c.mouse_buttons mb with
  | some s => s.down
  | none => false

/-- `getters::is_mouse_button_pressed`. -/
def is_mouse_button_pressed (c : Context) (mb : Nat) : Bool :=
  match lookupState c.mouse_buttons mb with
  | some s => s.pressed
  | none => false

/-- `getters::is_mouse_button_released`. -/
def is_mouse_button_released (c : Context) (mb : Nat) : Bool :=
  match lookupState c.mouse_buttons mb with
  | some s => s.released
  | none => false

/-- `getters::mouse_position`. -/
def mouse_position (c : Context) : Vec2 :=
  c.mouse_position

/-- The `ctx` read accessor applies the caller's closure to a shared
(immutable) borrow of the context and returns the closure's result; the
context after the call is the one it was given. -/
def ctxRead (c : Context) (f : Context → Bool) : Bool × Context :=
  (f c, c)

/-- Effect steps taken by the `ctx` / `ctx_mut` accessors. -/
inductive LockEvent
  | acquireRead
  | acquireWrite
  | fatalError
  | runClosure
deriving DecidableEq

/-- Effect trace of `ctx` (src/lib.rs): `CONTEXT.read()` acquires the read
lock first; only then does `.expect(..)` inspect the `Option` inside the
lock, failing fatally when the singleton is absent, and the caller's closure
runs only in the present case. -/
def ctxTrace (present : Bool) : List LockEvent :=
  LockEvent.acquireRead ::
    (if present then [LockEvent.runClosure] else [LockEvent.fatalError])

/-- Effect trace of `ctx_mut` (src/lib.rs): `CONTEXT.write()` acquires the
write lock first, then `.expect(..)` checks the `Option` inside the lock. -/
def ctx_mutTrace (present : Bool) : List LockEvent :=
  LockEvent.acquireWrite ::
    (if present then [LockEvent.runClosure] else [LockEvent.fatalError])

/-- `RenderId` of src/render.rs: a pair of unsigned line/column numbers with
derived structural equality. -/
structure RenderId where
  line : Nat
  col : Nat
deriving DecidableEq

/-- `RenderId::new`. -/
def RenderId.new (a b : Nat) : RenderId := ⟨a, b⟩

/-- A textual call site: the file it is in and its line/column position
within that file (\x60line!()\x60 and \x60column!()\x60 are file-relative). -/
structure CallSite where
  file : String
  line : Nat
  col : Nat
deriving DecidableEq

/-- The expansion of the location-keyed identifier constructor of
src/render.rs at a call site: `RenderId::new(line!(), column!())` — it uses
only the line and column of the site, not the file. -/
def locationId (site : CallSite) : RenderId :=
  RenderId.new site.line site.col

/-- A frame whose only event is a single keyboard event for `key`. -/
def keyFrame (scan key : Nat) (st : ElementState) : FrameEvents :=
  { emptyFrame with keyboard := [⟨scan, some key, st⟩] }

/-- A frame whose only event is a single cursor-position event. -/
def cursorFrame (pos : Vec2) : FrameEvents :=
  { emptyFrame with cursor_moved := [⟨pos⟩] }

/-- A frame whose only events are mouse-motion (relative delta) events. -/
def motionFrame (ms : List MouseMotion) : FrameEvents :=
  { emptyFrame with mouse_motion := ms }

/-- The per-entry invariant of `ButtonState`: `pressed` and `released` never
both hold, `pressed` implies `down`, `released` implies not `down`. -/
def stateInv (s : ButtonState) : Prop :=
  ¬(s.pressed = true ∧ s.released = true) ∧
    (s.pressed = true → s.down = true) ∧
    (s.released = true → s.down = false)

/-- Every `ButtonState` stored in either map of the context satisfies
`stateInv`. -/
def ctxInv (c : Context) : Prop :=
  (∀ k s, lookupState c.keys k = some s → stateInv s) ∧
    (∀ b s, lookupState c.mouse_buttons b = some s → stateInv s)

theorem lookup_insert_self (m : List (Nat × ButtonState)) (k : Nat) (v : ButtonState) :
    lookupState (insertState m k v) k = some v := by
  induction m with
  | nil => simp [insertState, lookupState]
  | cons hd tl ih =>
    obtain ⟨k2, v2⟩ := hd
    by_cases h : k2 = k
    · simp [insertState, lookupState, h]
    · simp [insertState, lookupState, h, ih]

theorem lookup_insert_ne (m : List (Nat × ButtonState)) (k k' : Nat) (v : ButtonState)
    (h : k ≠ k') : lookupState (insertState m k v) k' = lookupState m k' := by
  induction m with
  | nil => simp [insertState, lookupState, h]
  | cons hd tl ih =>
    obtain ⟨k2, v2⟩ := hd
    by_cases h2 : k2 = k
    · subst h2
      simp [insertState, lookupState, h]
    · simp [insertState, lookupState, h2, ih]

theorem processKeyboard_cons (c : Context) (e : KeyboardInput) (rest : List KeyboardInput) :
    processKeyboard c (e :: rest) =
      ((processKeyboard ((processKeyboardEvent c e).1) rest).1,
        (processKeyboardEvent c e).2 ++ (processKeyboard ((processKeyboardEvent c e).1) rest).2) :=
  rfl

theorem processKeyboardEvent_mouse_buttons (c : Context) (e : KeyboardInput) :
    ((processKeyboardEvent c e).1).mouse_buttons = c.mouse_buttons := by
  cases hkc : e.key_code <;> simp [processKeyboardEvent, hkc]

theorem processMouseButtons_keys (evs : List MouseButtonInput) (c : Context) :
    ((processMouseButtons c evs).1).keys = c.keys := by
  induction evs generalizing c with
  | nil => rfl
  | cons e rest ih =>
    simp [processMouseButtons, processMouseButtonEvent, ih]

theorem processCursorMoved_keys (ps : List CursorMoved) (c : Context) :
    ((processCursorMoved c ps).1).keys = c.keys := by
  induction ps generalizing c with
  | nil => rfl
  | cons p rest ih =>
    simp [processCursorMoved, ih]

theorem processCursorMoved_mouse_buttons (ps : List CursorMoved) (c : Context) :
    ((processCursorMoved c ps).1).mouse_buttons = c.mouse_buttons := by
  induction ps generalizing c with
  | nil => rfl
  | cons p rest ih =>
    simp [processCursorMoved, ih]

theorem processResize_keys (rs : List WindowResized) (c : Context) :
    ((processResize c rs).1).keys = c.keys := by
  induction rs generalizing c with
  | nil => rfl
  | cons r rest ih =>
    simp [processResize, ih]

theorem processResize_mouse_buttons (rs : List WindowResized) (c : Context) :
    ((processResize c rs).1).mouse_buttons = c.mouse_buttons := by
  induction rs generalizing c with
  | nil => rfl
  | cons r rest ih =>
    simp [processResize, ih]

theorem processKeyboard_lookup_of_nomem (evs : List KeyboardInput) (c : Context) (k : Nat)
    (h : ∀ e ∈ evs, e.key_code ≠ some k) :
    lookupState ((processKeyboard c evs).1).keys k = lookupState c.keys k := by
  induction evs generalizing c with
  | nil => rfl
  | cons e rest ih =>
    have he : e.key_code ≠ some k := h e (List.mem_cons_self e rest)
    have hrest : ∀ e2 ∈ rest, e2.key_code ≠ some k :=
      fun e2 m => h e2 (List.mem_cons_of_mem e m)
    rw [processKeyboard_cons]
    rw [ih ((processKeyboardEvent c e).1) hrest]
    cases hkc : e.key_code with
    | none => simp [processKeyboardEvent, hkc]
    | some k2 =>
      have hk2 : k2 ≠ k := by
        intro hh
        exact he (by rw [hkc, hh])
      simp [processKeyboardEvent, hkc, lookup_insert_ne _ _ _ _ hk2]

theorem update_keys_context (c : Context) (f : FrameEvents) :
    (update_keys c f).1 =
      (processResize ((processCursorMoved ((processMouseButtons
        ((processKeyboard c f.keyboard).1) f.mouse_buttons).1) f.cursor_moved).1) f.resize).1 :=
  rfl

theorem lookup_update_keys_nokey (c : Context) (f : FrameEvents) (k : Nat)
    (h : ∀ e ∈ f.keyboard, e.key_code ≠ some k) :
    lookupState ((update_keys c f).1).keys k = lookupState c.keys k := by
  rw [update_keys_context, processResize_keys, processCursorMoved_keys,
    processMouseButtons_keys]
  exact processKeyboard_lookup_of_nomem f.keyboard c k h

theorem lookup_after_pressed (c : Context) (k scan : Nat) :
    lookupState ((update_keys c (keyFrame scan k ElementState.Pressed)).1).keys k =
      some ⟨true, true, false⟩ := by
  rw [update_keys_context]
  simp [keyFrame, emptyFrame, processKeyboard, processKeyboardEvent, applyKeyTransition,
    processMouseButtons, processCursorMoved, processResize, lookup_insert_self]

theorem stateInv_applyKey (s : ButtonState) (st : ElementState) :
    stateInv ((applyKeyTransition s st).1) := by
  cases st <;> simp [applyKeyTransition, stateInv]

theorem stateInv_applyMouse (s : ButtonState) (st : ElementState) :
    stateInv (applyMouseTransition s st) := by
  cases st <;> simp [applyMouseTransition, stateInv]

theorem ctxInv_processKeyboardEvent (c : Context) (e : KeyboardInput) (h : ctxInv c) :
    ctxInv ((processKeyboardEvent c e).1) := by
  cases hkc : e.key_code with
  | none => simpa [processKeyboardEvent, hkc] using h
  | some key =>
    constructor
    · intro k s hs
      simp only [processKeyboardEvent, hkc] at hs
      by_cases hk : key = k
      · subst hk
        rw [lookup_insert_self] at hs
        cases hs
        exact stateInv_applyKey _ _
      · rw [lookup_insert_ne _ _ _ _ hk] at hs
        exact h.1 k s hs
    · intro b s hs
      simp only [processKeyboardEvent, hkc] at hs
      exact h.2 b s hs

theorem ctxInv_processKeyboard (evs : List KeyboardInput) (c : Context) (h : ctxInv c) :
    ctxInv ((processKeyboard c evs).1) := by
  induction evs generalizing c with
  | nil => exact h
  | cons e rest ih =>
    rw [processKeyboard_cons]
    exact ih _ (ctxInv_processKeyboardEvent c e h)

theorem ctxInv_processMouseButtonEvent (c : Context) (e : MouseButtonInput) (h : ctxInv c) :
    ctxInv ((processMouseButtonEvent c e).1) := by
  constructor
  · intro k s hs
    simp only [processMouseButtonEvent] at hs
    exact h.1 k s hs
  · intro b s hs
    simp only [processMouseButtonEvent] at hs
    by_cases hb : e.button = b
    · subst hb
      rw [lookup_insert_self] at hs
      cases hs
      exact stateInv_applyMouse _ _
    · rw [lookup_insert_ne _ _ _ _ hb] at hs
      exact h.2 b s hs

theorem ctxInv_processMouseButtons (evs : List MouseButtonInput) (c : Context) (h : ctxInv c) :
    ctxInv ((processMouseButtons c evs).1) := by
  induction evs generalizing c with
  | nil => exact h
  | cons e rest ih =>
    have : processMouseButtons c (e :: rest) =
        ((processMouseButtons ((processMouseButtonEvent c e).1) rest).1,
          (processMouseButtonEvent c e).2 ++
            (processMouseButtons ((processMouseButtonEvent c e).1) rest).2) := rfl
    rw [this]
    exact ih _ (ctxInv_processMouseButtonEvent c e h)

theorem ctxInv_of_maps_eq (c c' : Context) (hk : c'.keys = c.keys)
    (hb : c'.mouse_buttons = c.mouse_buttons) (h : ctxInv c) : ctxInv c' := by
  constructor
  · intro k s hs
    rw [hk] at hs
    exact h.1 k s hs
  · intro b s hs
    rw [hb] at hs
    exact h.2 b s hs

theorem ctxInv_update_keys (c : Context) (f : FrameEvents) (h : ctxInv c) :
    ctxInv ((update_keys c f).1) := by
  rw [update_keys_context]
  exact ctxInv_of_maps_eq
    ((processMouseButtons ((processKeyboard c f.keyboard).1) f.mouse_buttons).1) _
    (by rw [processResize_keys, processCursorMoved_keys])
    (by rw [processResize_mouse_buttons, processCursorMoved_mouse_buttons])
    (ctxInv_processMouseButtons _ _ (ctxInv_processKeyboard _ _ h))

theorem ctxInv_initial (width height : Int) : ctxInv (initialContext width height) := by
  constructor <;> intro k s hs <;> simp [initialContext, lookupState] at hs

/-- Claim C1 counterexample: ingest a cycle whose only event is Pressed for
key 1, then an empty cycle with no new event for key 1. The claim asserts
that afterwards `is_key_pressed 1` is false while `is_key_down 1` is true;
on the code the pressed flag is only reset when a later event for the same
key is processed, so `is_key_pressed 1` is still true and the claimed
conjunction fails. -/
theorem pressed_flag_not_cleared_counterexample :
    ¬(is_key_pressed ((update_keys ((update_keys (initialContext 800 600)
          (keyFrame 0 1 ElementState.Pressed)).1) emptyFrame).1) 1 = false ∧
      is_key_down ((update_keys ((update_keys (initialContext 800 600)
          (keyFrame 0 1 ElementState.Pressed)).1) emptyFrame).1) 1 = true) := by
  decide

/-- Claim C1 (amended): after a cycle containing a Pressed event for key k,
a following ingestion cycle with no new event for k leaves both edge and
level state for k untouched: `is_key_pressed k` remains true and
`is_key_down k` remains true (edge flags are reset only by the next event
for the same key, not by the next cycle). -/
theorem pressed_flag_persists_without_new_event (c : Context) (k scan : Nat)
    (f : FrameEvents) (h : ∀ e ∈ f.keyboard, e.key_code ≠ some k) :
    is_key_pressed ((update_keys ((update_keys c
        (keyFrame scan k ElementState.Pressed)).1) f).1) k = true ∧
    is_key_down ((update_keys ((update_keys c
        (keyFrame scan k ElementState.Pressed)).1) f).1) k = true := by
  have h2 := lookup_update_keys_nokey
    ((update_keys c (keyFrame scan k ElementState.Pressed)).1) f k h
  rw [lookup_after_pressed c k scan] at h2
  constructor
  · simp [is_key_pressed, h2]
  · simp [is_key_down, h2]

/-- Claim C1 witness: the amended theorem applied to the initial context,
key 1, and an empty second cycle. -/
theorem pressed_flag_persists_without_new_event_witness :
    (∀ e ∈ emptyFrame.keyboard, e.key_code ≠ some 1) ∧
    (is_key_pressed ((update_keys ((update_keys (initialContext 800 600)
        (keyFrame 0 1 ElementState.Pressed)).1) emptyFrame).1) 1 = true ∧
      is_key_down ((update_keys ((update_keys (initialContext 800 600)
          (keyFrame 0 1 ElementState.Pressed)).1) emptyFrame).1) 1 = true) :=
  ⟨by decide,
    pressed_flag_persists_without_new_event (initialContext 800 600) 1 0 emptyFrame
      (by decide)⟩

/-- Claim C2 counterexample: when the singleton is absent, the effect trace
of `ctx` contains the read-lock acquisition and that of `ctx_mut` the
write-lock acquisition — the fatal `expect` check happens only after the
lock is taken, refuting "fail fatally without acquiring the read or write
lock". -/
theorem accessor_acquires_lock_counterexample :
    LockEvent.acquireRead ∈ ctxTrace false ∧
    LockEvent.acquireWrite ∈ ctx_mutTrace false := by
  decide

/-- Claim C2 (amended): when the InputContext singleton is absent, both
accessors first acquire their lock (read for `ctx`, write for `ctx_mut`)
and then fail fatally at the absence check; the caller's closure is never
run. -/
theorem accessor_fatal_check_inside_lock :
    ctxTrace false = [LockEvent.acquireRead, LockEvent.fatalError] ∧
    ctx_mutTrace false = [LockEvent.acquireWrite, LockEvent.fatalError] ∧
    LockEvent.runClosure ∉ ctxTrace false ∧
    LockEvent.runClosure ∉ ctx_mutTrace false := by
  decide

/-- Claim C3 counterexample: the id-constructing macro expands to
`RenderId::new(line!(), column!())` and records no file, so two textually
distinct call sites in different files at the same line and column yield
equal RenderIds. -/
theorem location_id_cross_file_collision :
    (⟨"src/lib.rs", 20, 9⟩ : CallSite) ≠ (⟨"src/render.rs", 20, 9⟩ : CallSite) ∧
    locationId ⟨"src/lib.rs", 20, 9⟩ = locationId ⟨"src/render.rs", 20, 9⟩ := by
  refine ⟨fun h => ?_, rfl⟩
  have h2 : "src/lib.rs" = "src/render.rs" := congrArg CallSite.file h
  simp at h2

/-- Claim C3 (amended): the constructed identifier is a pure function of the
call site's line and column: two invocations agree exactly when line and
column agree (so the textually same call site always reproduces its id, and
two call sites differing in line or column get distinct ids — but two sites
in different files sharing line and column collide); two RenderIds are equal
iff both their line and col components match. -/
theorem location_id_equality_characterisation :
    (∀ s t : CallSite, locationId s = locationId t ↔
      (s.line = t.line ∧ s.col = t.col)) ∧
    (∀ a b : RenderId, a = b ↔ (a.line = b.line ∧ a.col = b.col)) := by
  constructor
  · intro s t
    cases s
    cases t
    simp [locationId, RenderId.new, RenderId.mk.injEq]
  · intro a b
    cases a
    cases b
    simp [RenderId.mk.injEq]

/-- Claim C4: processing a Pressed keyboard event for key k sets the down
and pressed flags, clears released, and passes the key's previous down
value (`is_key_down` of the pre-state, false for a never-seen key) as the
repeat argument of the single keyboard callback invocation. -/
theorem pressed_event_semantics (c : Context) (k scan : Nat) :
    is_key_down ((processKeyboardEvent c ⟨scan, some k, ElementState.Pressed⟩).1) k = true ∧
    is_key_pressed ((processKeyboardEvent c ⟨scan, some k, ElementState.Pressed⟩).1) k = true ∧
    is_key_released ((processKeyboardEvent c ⟨scan, some k, ElementState.Pressed⟩).1) k = false ∧
    (processKeyboardEvent c ⟨scan, some k, ElementState.Pressed⟩).2 =
      [CallbackEvent.keyboard k scan ElementState.Pressed (is_key_down c k)] := by
  refine ⟨?_, ?_, ?_, ?_⟩
  · simp [processKeyboardEvent, applyKeyTransition, is_key_down, lookup_insert_self]
  · simp [processKeyboardEvent, applyKeyTransition, is_key_pressed, lookup_insert_self]
  · simp [processKeyboardEvent, applyKeyTransition, is_key_released, lookup_insert_self]
  · cases h : lookupState c.keys k <;>
      simp [processKeyboardEvent, applyKeyTransition, is_key_down, h, defaultButtonState]

/-- Claim C5: processing a Released keyboard event for key k always clears
the down and pressed flags and sets released, whatever the prior state. -/
theorem released_event_semantics (c : Context) (k scan : Nat) :
    is_key_down ((processKeyboardEvent c ⟨scan, some k, ElementState.Released⟩).1) k = false ∧
    is_key_released ((processKeyboardEvent c ⟨scan, some k, ElementState.Released⟩).1) k = true ∧
    is_key_pressed ((processKeyboardEvent c ⟨scan, some k, ElementState.Released⟩).1) k = false := by
  refine ⟨?_, ?_, ?_⟩
  · simp [processKeyboardEvent, applyKeyTransition, is_key_down, lookup_insert_self]
  · simp [processKeyboardEvent, applyKeyTransition, is_key_released, lookup_insert_self]
  · simp [processKeyboardEvent, applyKeyTransition, is_key_pressed, lookup_insert_self]

/-- Claim C6: querying a key or mouse button absent from the context's maps
returns false from all six flag getters, and the read-scoped access leaves
the context exactly as it was (no entry is created by a query). -/
theorem absent_entry_queries (c : Context) (k b : Nat)
    (hk : lookupState c.keys k = none) (hb : lookupState c.mouse_buttons b = none) :
    ctxRead c (fun x => is_key_down x k) = (false, c) ∧
    ctxRead c (fun x => is_key_pressed x k) = (false, c) ∧
    ctxRead c (fun x => is_key_released x k) = (false, c) ∧
    ctxRead c (fun x => is_mouse_button_down x b) = (false, c) ∧
    ctxRead c (fun x => is_mouse_button_pressed x b) = (false, c) ∧
    ctxRead c (fun x => is_mouse_button_released x b) = (false, c) := by
  refine ⟨?_, ?_, ?_, ?_, ?_, ?_⟩ <;>
    simp [ctxRead, is_key_down, is_key_pressed, is_key_released,
      is_mouse_button_down, is_mouse_button_pressed, is_mouse_button_released, hk, hb]

/-- Claim C6 witness: the fresh initial context has no entry for key 5 or
button 2, and the theorem applies there. -/
theorem absent_entry_queries_witness :
    lookupState (initialContext 800 600).keys 5 = none ∧
    lookupState (initialContext 800 600).mouse_buttons 2 = none ∧
    ctxRead (initialContext 800 600) (fun x => is_key_down x 5) =
      (false, initialContext 800 600) :=
  ⟨rfl, rfl, (absent_entry_queries (initialContext 800 600) 5 2 rfl rfl).1⟩

/-- Claim C7: an ingestion cycle whose only event is a cursor-position event
stores that position into the context and invokes exactly the one
absolute-position callback with it; a cycle of mouse-motion events returns
the context unchanged and invokes exactly the relative-motion callbacks; in
particular motion events after a cursor-position event do not change what
`mouse_position` returns. -/
theorem cursor_and_motion_semantics :
    (∀ (c : Context) (pos : Vec2),
      update_keys c (cursorFrame pos) =
        ({ c with mouse_position := pos }, [CallbackEvent.mouseAbsolute pos])) ∧
    (∀ (c : Context) (ms : List MouseMotion),
      update_keys c (motionFrame ms) =
        (c, ms.map (fun m => CallbackEvent.mouseRelative m.delta))) ∧
    (∀ (c : Context) (pos : Vec2) (ms : List MouseMotion),
      mouse_position ((update_keys ((update_keys c (cursorFrame pos)).1)
        (motionFrame ms)).1) = pos) := by
  refine ⟨?_, ?_, ?_⟩
  · intro c pos
    rfl
  · intro c ms
    simp [update_keys, motionFrame, emptyFrame, processKeyboard, processMouseButtons,
      processMouseMotion, processCursorMoved, processResize]
  · intro c pos ms
    simp [update_keys, motionFrame, cursorFrame, emptyFrame, processKeyboard,
      processMouseButtons, processMouseMotion, processCursorMoved, processResize,
      mouse_position]

/-- Claim C9: a keyboard event whose key code is absent is skipped entirely:
the context is returned unchanged and no callback is invoked. -/
theorem keyless_event_skipped (c : Context) (scan : Nat) (st : ElementState) :
    processKeyboardEvent c ⟨scan, none, st⟩ = (c, []) :=
  rfl

/-- Claim C10: the all-false default ButtonState satisfies the tri-flag
invariant (pressed and released never both true, pressed implies down,
released implies not down), and one ingestion cycle preserves the invariant
for every entry of both maps — so it holds forever starting from the empty
initial context. -/
theorem button_state_invariant_preserved (c : Context) (f : FrameEvents)
    (h : ctxInv c) :
    stateInv defaultButtonState ∧ ctxInv ((update_keys c f).1) :=
  ⟨by simp [stateInv, defaultButtonState], ctxInv_update_keys c f h⟩

/-- Claim C10 witness: the invariant holds for the initial context and is
carried through a cycle containing a Pressed event. -/
theorem button_state_invariant_preserved_witness :
    ctxInv (initialContext 800 600) ∧
    (stateInv defaultButtonState ∧
      ctxInv ((update_keys (initialContext 800 600)
        (keyFrame 0 1 ElementState.Pressed)).1)) :=
  ⟨ctxInv_initial 800 600,
    button_state_invariant_preserved (initialContext 800 600)
      (keyFrame 0 1 ElementState.Pressed) (ctxInv_initial 800 600)⟩

end Bevl
